import Mathlib

/-!
Shallow embedding of `src/extract_transactions.py` (apple-spend): the
extraction pipeline that turns a parsed purchase-history HTML tree into a
list of Transaction records, plus the CSV writer and the repeated-items
aggregation.  HTML-tree queries (BeautifulSoup `find` calls) are abstracted
as record fields that hold exactly the data each query would return;
every Python function is translated to a Lean definition of the same name.
-/

namespace AppleSpend

/-- Whitespace characters recognised by Python's `str.strip`, `str.split`
and the regex class `\s` (restricted here to the ASCII set, which is all
that the repository's inputs use). -/
def pyIsSpace (c : Char) : Bool :=
  c = ' ' || c = '\t' || c = '\n' || c = '\x0d' || c = '\x0b' || c = '\x0c'

/-- Strip leading and trailing whitespace from a character list
(Python `str.strip()`). -/
def stripChars (cs : List Char) : List Char :=
  ((cs.dropWhile pyIsSpace).reverse.dropWhile pyIsSpace).reverse

/-- Python `str.strip()`. -/
def pyStrip (s : String) : String :=
  ⟨stripChars s.toList⟩

/-- Accumulator pass of `splitWsChars`; the accumulator holds the current
word reversed. -/
def splitWsAux : List Char → List Char → List (List Char)
  | [], acc => if acc.isEmpty then [] else [acc.reverse]
  | c :: rest, acc =>
    if pyIsSpace c then
      if acc.isEmpty then splitWsAux rest []
      else acc.reverse :: splitWsAux rest []
    else splitWsAux rest (c :: acc)

/-- Split a character list on whitespace runs, discarding empty pieces
(Python `str.split()` with no argument). -/
def splitWsChars (cs : List Char) : List (List Char) :=
  splitWsAux cs []

/-- Python `' '.join(s.split()).strip()`: collapse every whitespace run to a
single space and trim the ends (line 33 of the source). -/
def collapseWs (s : String) : String :=
  pyStrip (String.intercalate " " ((splitWsChars s.toList).map String.mk))

/-- Does `ns` occur as a contiguous sublist of the second list?  Models the
Python substring test `ns in hay`. -/
def containsSubChars (ns : List Char) : List Char → Bool
  | [] => ns.isEmpty
  | c :: rest => List.isPrefixOf ns (c :: rest) || containsSubChars ns rest

/-- Python `needle in hay` on strings. -/
def containsSub (needle hay : String) : Bool :=
  containsSubChars needle.toList hay.toList

/-- Word character of the regex class `\w` (ASCII letters, digits and the
underscore; the inputs in scope are ASCII). -/
def isWordChar (c : Char) : Bool :=
  c.isAlphanum || c = '_'

/-- Numeric value of a decimal digit character. -/
def digitVal (c : Char) : Nat :=
  c.toNat - '0'.toNat

/-- Value of a list of decimal digit characters read left to right. -/
def digitsVal (cs : List Char) : Nat :=
  cs.foldl (fun a c => a * 10 + digitVal c) 0

/-- Lowercased three-letter month abbreviations accepted by `strptime`'s
`%b` directive (it matches case-insensitively). -/
def monthNames : List (List Char) :=
  [['j','a','n'], ['f','e','b'], ['m','a','r'], ['a','p','r'],
   ['m','a','y'], ['j','u','n'], ['j','u','l'], ['a','u','g'],
   ['s','e','p'], ['o','c','t'], ['n','o','v'], ['d','e','c']]

/-- Look a lowercased abbreviation up in a month list, returning its
1-based month number. -/
def monthLookup : List (List Char) → Nat → List Char → Option Nat
  | [], _, _ => none
  | m :: ms, i, cs => if cs = m then some i else monthLookup ms (i + 1) cs

/-- Month number (1..12) of a three-character abbreviation, compared
case-insensitively as `strptime` does. -/
def monthNum (cs : List Char) : Option Nat :=
  monthLookup monthNames 1 (cs.map Char.toLower)

/-- Consume one-or-more whitespace characters (the `\s+` that `strptime`
substitutes for every whitespace run of the format string). -/
def eatWs1 (cs : List Char) : Option (List Char) :=
  match cs with
  | c :: rest => if pyIsSpace c then some (rest.dropWhile pyIsSpace) else none
  | [] => none

/-- Parse `strptime`'s `%d` directive (regex `3[01]|[12]\d|0[1-9]|[1-9]`)
immediately followed by the literal comma of the format `"%b %d, %Y"`.
Returns the day value and the rest after the comma.  The regex alternation
with backtracking resolves deterministically: a two-digit day must be
followed by the comma, a one-digit day is taken exactly when the second
character is the comma itself. -/
def parseDayComma (cs : List Char) : Option (Nat × List Char) :=
  match cs with
  | a :: b :: rest =>
    if a.isDigit then
      if b.isDigit then
        match rest with
        | ',' :: rest2 =>
          let d := digitVal a * 10 + digitVal b
          if 1 ≤ d ∧ d ≤ 31 then some (d, rest2) else none
        | _ => none
      else if b = ',' then
        if 1 ≤ digitVal a then some (digitVal a, rest) else none
      else none
    else none
  | _ => none

/-- Parse `strptime`'s `%Y` directive (regex `\d\d\d\d`, exactly four
digits) which must consume the whole remainder of the input, as `strptime`
rejects unconverted trailing data. -/
def parseYear4 (cs : List Char) : Option Nat :=
  match cs with
  | [a, b, c, d] =>
    if a.isDigit && b.isDigit && c.isDigit && d.isDigit then
      some (digitsVal [a, b, c, d])
    else none
  | _ => none

/-- Gregorian leap-year rule used by `datetime`'s day-of-month check. -/
def isLeapYear (y : Nat) : Bool :=
  y % 4 = 0 && (y % 100 ≠ 0 || y % 400 = 0)

/-- Number of days of month `m` in year `y` (as validated by the
`datetime` constructor). -/
def daysInMonth (y m : Nat) : Nat :=
  if m = 2 then (if isLeapYear y then 29 else 28)
  else if m = 4 ∨ m = 6 ∨ m = 9 ∨ m = 11 then 30
  else 31

/-- Render a month or day as the two-digit zero-padded field of
`strftime("%m")` / `strftime("%d")`. -/
def pad2 (n : Nat) : String :=
  ⟨[Nat.digitChar (n / 10 % 10), Nat.digitChar (n % 10)]⟩

/-- Render a year as `strftime("%Y")` does on glibc: its decimal digits
with no padding (years reaching this point come from a four-digit
`%Y` field, so in scope this is the same four digits). -/
def yearStr (y : Nat) : String :=
  if 1000 ≤ y then
    ⟨[Nat.digitChar (y / 1000 % 10), Nat.digitChar (y / 100 % 10),
      Nat.digitChar (y / 10 % 10), Nat.digitChar (y % 10)]⟩
  else if 100 ≤ y then
    ⟨[Nat.digitChar (y / 100 % 10), Nat.digitChar (y / 10 % 10),
      Nat.digitChar (y % 10)]⟩
  else if 10 ≤ y then ⟨[Nat.digitChar (y / 10 % 10), Nat.digitChar (y % 10)]⟩
  else ⟨[Nat.digitChar (y % 10)]⟩

/-- The canonical `YYYY-MM-DD` rendering `strftime("%Y-%m-%d")`. -/
def fmtDate (y m d : Nat) : String :=
  yearStr y ++ "-" ++ pad2 m ++ "-" ++ pad2 d

/-- Source lines 15-17: strip the text, parse it with
`datetime.strptime(_, "%b %d, %Y")` and re-render it as `YYYY-MM-DD`.
A failed parse raises `ValueError` in Python; here it is `none`. -/
def parse_date (date_str : String) : Option String :=
  match (pyStrip date_str).toList with
  | m1 :: m2 :: m3 :: rest =>
    match monthNum [m1, m2, m3] with
    | some m =>
      match eatWs1 rest with
      | some r1 =>
        match parseDayComma r1 with
        | some (d, r2) =>
          match eatWs1 r2 with
          | some r3 =>
            match parseYear4 r3 with
            | some y =>
              if 1 ≤ y ∧ d ≤ daysInMonth y m then some (fmtDate y m d)
              else none
            | none => none
          | none => none
        | none => none
      | none => none
    | none => none
  | _ => none

/-- One half of the date-range regex: `\w{3} \d{1,2}, \d{4}`, returning
the remaining characters on success.  The `\d{1,2}` alternative resolves
deterministically against the following literal comma, and `\d{4}` is an
exact four-digit run. -/
def matchDateHalf (cs : List Char) : Option (List Char) :=
  match cs with
  | w1 :: w2 :: w3 :: ' ' :: a :: b :: rest =>
    if isWordChar w1 && isWordChar w2 && isWordChar w3 && a.isDigit then
      if b.isDigit then
        match rest with
        | ',' :: ' ' :: y1 :: y2 :: y3 :: y4 :: rest2 =>
          if y1.isDigit && y2.isDigit && y3.isDigit && y4.isDigit then
            some rest2
          else none
        | _ => none
      else if b = ',' then
        match rest with
        | ' ' :: y1 :: y2 :: y3 :: y4 :: rest2 =>
          if y1.isDigit && y2.isDigit && y3.isDigit && y4.isDigit then
            some rest2
          else none
        | _ => none
      else none
    else none
  | _ => none

/-- Source lines 20-21: `re.match` of the anchored pattern
`^\w{3} \d{1,2}, \d{4} - \w{3} \d{1,2}, \d{4}$` against the stripped
text. -/
def is_date_range (text : String) : Bool :=
  match matchDateHalf (pyStrip text).toList with
  | some (' ' :: '-' :: ' ' :: rest) =>
    match matchDateHalf rest with
    | some [] => true
    | _ => false
  | _ => false

/-- Decimal numeral value of the strings matched by the amount regex group
`[0-9]+\.?[0-9]*`, as the pair (numerator, number of fraction digits); the
numeral's value is numerator / 10 ^ fraction-length.  This is exactly the
value Python's `float()` denotes on such strings. -/
def floatParts (cs : List Char) : Nat × Nat :=
  let ip := cs.takeWhile Char.isDigit
  match cs.dropWhile Char.isDigit with
  | '.' :: fp =>
    let fd := fp.takeWhile Char.isDigit
    (digitsVal ip * 10 ^ fd.length + digitsVal fd, fd.length)
  | _ => (digitsVal ip, 0)

/-- Rational value of a decimal numeral string (the semantics of
`float(amount)` on the regex-matched amount strings). -/
def floatVal (cs : List Char) : ℚ :=
  ((floatParts cs).1 : ℚ) / ((10 : ℚ) ^ (floatParts cs).2)

/-- Value of `float(s.replace('$', ''))` as applied to amount strings by
the aggregation functions (source lines 190, 213, 229). -/
def amountNumeral (s : String) : ℚ :=
  floatVal (s.toList.filter (fun c => c ≠ '$'))

/-- Match of the regex `\$([0-9]+\.?[0-9]*)` anchored at the head of the
list, returning the capture group: all parts are greedy and cannot
backtrack against each other, so the group is the digit run after `$`,
then the dot if present, then the following digit run. -/
def matchAmountAt (cs : List Char) : Option (List Char) :=
  match cs with
  | c :: rest =>
    if c = '$' then
      let ds := rest.takeWhile Char.isDigit
      if ds.isEmpty then none
      else
        match rest.dropWhile Char.isDigit with
        | c2 :: rest3 =>
          if c2 = '.' then some (ds ++ '.' :: rest3.takeWhile Char.isDigit)
          else some ds
        | [] => some ds
    else none
  | [] => none

/-- `re.search(r'\$([0-9]+\.?[0-9]*)', _)`: the leftmost match wins. -/
def amountSearch : List Char → Option (List Char)
  | [] => none
  | c :: rest =>
    match matchAmountAt (c :: rest) with
    | some g => some g
    | none => amountSearch rest

/-- The title element found at source line 25 (`label.pli-title` or, failing
that, `div.pli-title`).  `ariaLabelChild` is the `aria-label` attribute
value of the first nested `div` carrying that attribute, when one exists;
`text` is the element's raw `get_text()`. -/
structure TitleElem where
  ariaLabelChild : Option String
  text : String
deriving DecidableEq, Repr

/-- The price container `div.pli-price`.  `hasFreeSpan` records whether a
`span` whose `data-auto-test-id` contains `Label.Free` is present (source
line 69); `text` is the container's `get_text(strip=True)`. -/
structure PriceElem where
  hasFreeSpan : Bool
  text : String
deriving DecidableEq, Repr

/-- One `li.pli` line-item node, abstracted to the data the five
tree queries of the source read from it.  `publisherText` is the
`get_text(strip=True)` of `div.pli-publisher` when that div exists;
`hasSubscriptionInfo` is the presence of `div.pli-subscription-info`;
`artworkImgSrc` is the `src` attribute (default `""`) of the first `img`
inside `div.pli-artwork`, when both exist. -/
structure Item where
  titleElem : Option TitleElem
  publisherText : Option String
  hasSubscriptionInfo : Bool
  priceDiv : Option PriceElem
  artworkImgSrc : Option String
deriving DecidableEq, Repr

/-- One `div.purchase` block.  `dateSpanText` is the
`get_text(strip=True)` of `span.invoice-date` when that span exists;
`itemsList` is the `li.pli` items of `ul.pli-list.applicable-items` when
that list exists. -/
structure PurchaseBlock where
  dateSpanText : Option String
  itemsList : Option (List Item)
deriving DecidableEq, Repr

/-- The parsed input document: its `div.purchase` blocks in order. -/
structure Doc where
  purchases : List PurchaseBlock
deriving DecidableEq, Repr

/-- The durable output record assembled at source lines 141-147. -/
structure Transaction where
  date : String
  item_name : String
  amount : String
  is_subscription : Bool
  icon_path : Option String
deriving DecidableEq, Repr

/-- The Python exception that aborts extraction: the `ValueError` raised
by `datetime.strptime` on unparsable date text. -/
inductive PyError where
  | valueError
deriving DecidableEq, Repr

/-- Source lines 29-33: prefer the `aria-label` of a nested div (stripped),
else the element's visible text with whitespace collapsed. -/
def resolvedTitleText (t : TitleElem) : String :=
  match t.ariaLabelChild with
  | some a => pyStrip a
  | none => collapseWs t.text

/-- Source lines 24-51.  Resolve the item name: title text (aria-label or
collapsed visible text); empty means no name; a date-range title is
replaced by a non-empty publisher; otherwise a non-empty publisher that
differs from the name prefixes it as `"<publisher> - <name>"`. -/
def extract_item_name (item : Item) : Option String :=
  match item.titleElem with
  | none => none
  | some t =>
    let item_name := resolvedTitleText t
    if item_name = "" then none
    else
      let early :=
        if is_date_range item_name then
          match item.publisherText with
          | some p => if p ≠ "" then some p else none
          | none => none
        else none
      match early with
      | some p => some p
      | none =>
        match item.publisherText with
        | some p =>
          if p ≠ "" ∧ p ≠ item_name then some (p ++ " - " ++ item_name)
          else some item_name
        | none => some item_name

/-- The keyword list of source line 59. -/
def subscriptionKeywords : List String :=
  ["iCloud+", "iCloud", "subscription", "Subscription"]

/-- Source lines 54-62: a dedicated `div.pli-subscription-info` wins;
otherwise a truthy resolved name containing one of the keywords. -/
def is_subscription_item (item : Item) : Bool :=
  if item.hasSubscriptionInfo then true
  else
    match extract_item_name item with
    | some item_name =>
      item_name != "" && subscriptionKeywords.any (fun k => containsSub k item_name)
    | none => false

/-- Source lines 65-83.  `None` price container, a free marker span, text
containing `"Free"`, text equal to `"$0.00"` or empty text all yield no
amount; otherwise the first `\$([0-9]+\.?[0-9]*)` match is kept when its
numeral is strictly positive (`float(amount) > 0`, which for these
numerals is exactly positivity of the numerator `(floatParts g).1` —
see `floatVal_pos_iff`). -/
def extract_amount (price_element : Option PriceElem) : Option String :=
  match price_element with
  | none => none
  | some pe =>
    if pe.hasFreeSpan then none
    else
      let price_text := pe.text
      if containsSub "Free" price_text || price_text == "$0.00" || price_text == "" then
        none
      else
        match amountSearch price_text.toList with
        | some g =>
          if 0 < (floatParts g).1 then some ("$" ++ String.mk g) else none
        | none => none

/-- Source lines 86-100: the artwork image's stripped `src`, if any step
of the lookup chain yields something non-empty. -/
def extract_icon_path (item : Item) : Option String :=
  match item.artworkImgSrc with
  | none => none
  | some src =>
    let icon_path := pyStrip src
    if icon_path = "" then none else some icon_path

/-- Body of the per-item loop of `extract_transactions` (source lines
126-147): skip items with no name, no price container or no amount;
otherwise assemble the Transaction. -/
def process_item (formatted_date : String) (item : Item) : Option Transaction :=
  match extract_item_name item with
  | none => none
  | some item_name =>
    match item.priceDiv with
    | none => none
    | some price_div =>
      match extract_amount (some price_div) with
      | none => none
      | some amount =>
        some { date := formatted_date, item_name := item_name, amount := amount,
               is_subscription := is_subscription_item item,
               icon_path := extract_icon_path item }

/-- Body of the per-purchase loop of `extract_transactions` (source lines
113-147): a block with no date span or no item list contributes nothing;
a date span whose text does not parse raises `ValueError`. -/
def process_block (b : PurchaseBlock) : Except PyError (List Transaction) :=
  match b.dateSpanText with
  | none => Except.ok []
  | some date_text =>
    match parse_date date_text with
    | none => Except.error PyError.valueError
    | some formatted_date =>
      match b.itemsList with
      | none => Except.ok []
      | some items => Except.ok (items.filterMap (process_item formatted_date))

/-- The purchase loop of `extract_transactions`, accumulating transactions
in document order; an uncaught `ValueError` aborts the whole loop. -/
def extract_from_blocks : List PurchaseBlock → Except PyError (List Transaction)
  | [] => Except.ok []
  | b :: rest =>
    match process_block b with
    | Except.error e => Except.error e
    | Except.ok ts =>
      match extract_from_blocks rest with
      | Except.error e => Except.error e
      | Except.ok more => Except.ok (ts ++ more)

/-- Source lines 103-149: `extract_transactions` over the parsed
document. -/
def extract_transactions (doc : Doc) : Except PyError (List Transaction) :=
  extract_from_blocks doc.purchases

instance (ε α : Type) [DecidableEq ε] [DecidableEq α] :
    DecidableEq (Except ε α) := fun a b =>
  match a, b with
  | Except.error x, Except.error y => decidable_of_iff (x = y) (by simp)
  | Except.error _, Except.ok _ => isFalse (by simp)
  | Except.ok _, Except.error _ => isFalse (by simp)
  | Except.ok x, Except.ok y => decidable_of_iff (x = y) (by simp)

/-- Source lines 152-161: collapse the iCloud+ and Pokémon GO product
families into single grouping buckets. -/
def normalize_item_name_for_summary (item_name : String) : String :=
  if containsSub "iCloud+" item_name then "iCloud+"
  else if containsSub "Pokémon GO" item_name || containsSub "PokéCoins" item_name then
    "Pokémon GO"
  else item_name

/-- One row of the repeated-items view (source lines 194-202). -/
structure RepeatedEntry where
  item_name : String
  count : Nat
  total_amount : ℚ
deriving DecidableEq, Repr

/-- Update of the `item_stats` dict at source lines 191-192: Python dicts
keep insertion order, modelled as an in-place-updated association list. -/
def bumpStat : List (String × Nat × ℚ) → String → ℚ → List (String × Nat × ℚ)
  | [], key, amt => [(key, 1, amt)]
  | (k, c, t) :: rest, key, amt =>
    if k = key then (k, c + 1, t + amt) :: rest
    else (k, c, t) :: bumpStat rest key amt

/-- Insert an element into a descending-sorted list, after every element
it does not strictly exceed. -/
def insertDescBy (le : α → α → Bool) (x : α) : List α → List α
  | [] => [x]
  | y :: ys => if le y x then x :: y :: ys else y :: insertDescBy le x ys

/-- Stable descending sort (insertion sort).  Python's `list.sort` with
`reverse=True` is the stable descending sort, which this insertion order
reproduces exactly: an element is placed before precisely the
strictly-smaller elements that preceded it. -/
def sortDescBy (le : α → α → Bool) (l : List α) : List α :=
  l.foldr (insertDescBy le) []

/-- The descending sort by `total_amount` of source line 204. -/
def sortByTotalDesc (l : List RepeatedEntry) : List RepeatedEntry :=
  sortDescBy (fun a b => decide (a.total_amount ≤ b.total_amount)) l

/-- Source lines 183-205: group by normalized name, sum amounts and count
occurrences in encounter order, keep groups occurring more than once,
sort descending by total amount (stable). -/
def analyze_repeated_transactions (transactions : List Transaction) :
    List RepeatedEntry :=
  let item_stats := transactions.foldl
    (fun st t =>
      bumpStat st (normalize_item_name_for_summary t.item_name)
        (amountNumeral t.amount)) []
  let repeated := (item_stats.filter (fun e => 1 < e.2.1)).map
    (fun e => { item_name := e.1, count := e.2.1, total_amount := e.2.2 })
  sortByTotalDesc repeated

/-- Code-point lexicographic comparison of character lists: the order
Python's `<=` induces on strings. -/
def charListLe : List Char → List Char → Bool
  | [], _ => true
  | _ :: _, [] => false
  | a :: as, b :: bs =>
    if a < b then true else if b < a then false else charListLe as bs

/-- Python string comparison `a <= b` (code-point lexicographic). -/
def strLe (a b : String) : Bool :=
  charListLe a.toList b.toList

/-- Source line 639: `transactions.sort(key=lambda x: x['date'],
reverse=True)` — the stable descending sort on the date strings. -/
def sortByDateDesc (l : List Transaction) : List Transaction :=
  sortDescBy (fun a b => strLe a.date b.date) l

/-- Does the csv module's QUOTE_MINIMAL dialect quote this field
(delimiter, quote char or line-terminator characters present)? -/
def csvQuoteNeeded (s : String) : Bool :=
  s.toList.any (fun c => c = ',' || c = '"' || c = '\x0d' || c = '\n')

/-- Double every quote character, as csv quoting does. -/
def csvEscape (s : String) : String :=
  ⟨s.toList.foldr (fun c acc => if c = '"' then '"' :: '"' :: acc else c :: acc) []⟩

/-- A field as the csv writer emits it (QUOTE_MINIMAL). -/
def csvField (s : String) : String :=
  if csvQuoteNeeded s then "\"" ++ csvEscape s ++ "\"" else s

/-- The `fieldnames` of source line 168. -/
def csvFieldnames : List String :=
  ["Date", "Item Name", "Amount", "Subscription"]

/-- One data row of the CSV (source lines 172-178): date, item name,
amount, and the subscription flag rendered as `Yes` / `No`. -/
def csvRow (t : Transaction) : String :=
  String.intercalate ","
    [csvField t.date, csvField t.item_name, csvField t.amount,
     csvField (if t.is_subscription then "Yes" else "No")]

/-- Source lines 164-180: the lines of the written CSV file, header first,
then one row per transaction in list order. -/
def write_csv (transactions : List Transaction) : List String :=
  String.intercalate "," (csvFieldnames.map csvField) :: transactions.map csvRow

/-- Observable outcome of `main` (source lines 628-652): the console
message for the empty case, the CSV file content when written, and
whether the HTML summary report was written. -/
structure MainOutput where
  message : Option String
  csvLines : Option (List String)
  summaryWritten : Bool
deriving DecidableEq, Repr

/-- Source lines 628-652: extract; on an empty result print the message
and return without writing anything; otherwise sort by date descending,
write the CSV and generate the summary report. -/
def main_run (doc : Doc) : Except PyError MainOutput :=
  match extract_transactions doc with
  | Except.error e => Except.error e
  | Except.ok transactions =>
    if transactions.isEmpty then
      Except.ok { message := some "No paid transactions found.",
                  csvLines := none, summaryWritten := false }
    else
      Except.ok { message := none,
                  csvLines := some (write_csv (sortByDateDesc transactions)),
                  summaryWritten := true }

example : parse_date "Jan 5, 2023" = some "2023-01-05" := by decide
example : parse_date "  Feb 29, 2024 " = some "2024-02-29" := by decide
example : parse_date "Feb 29, 2023" = none := by decide
example : parse_date "Not a date" = none := by decide
example : parse_date "JAN 31, 1999" = some "1999-01-31" := by decide
example : parse_date "Jan 32, 2023" = none := by decide
example : parse_date "Jan 05, 2023" = some "2023-01-05" := by decide
example : parse_date "Jan 5 2023" = none := by decide
example : is_date_range "Jan 1, 2023 - Jan 31, 2023" = true := by decide
example : is_date_range "iCloud+ 50GB" = false := by decide
example : is_date_range " Mar 7, 2024 - Apr 6, 2024 " = true := by decide
example : is_date_range "Jan 1, 2023 - Jan 31, 20233" = false := by decide
example : collapseWs "  a \n b  " = "a b" := by decide
example : containsSub "Free" "was Free today" = true := by decide
example : containsSub "Free" "free" = false := by decide

example : extract_amount (some ⟨false, "$4.99"⟩) = some "$4.99" := by decide
example : extract_amount (some ⟨false, "-$5.00"⟩) = some "$5.00" := by decide
example : extract_amount (some ⟨false, "$5."⟩) = some "$5." := by decide
example : extract_amount (some ⟨false, "$0.00"⟩) = none := by decide
example : extract_amount (some ⟨false, "$0.0"⟩) = none := by decide
example : extract_amount (some ⟨false, "Free for you"⟩) = none := by decide
example : extract_amount (some ⟨true, "$4.99"⟩) = none := by decide
example : extract_amount none = none := by decide
example : extract_amount (some ⟨false, "USD 4.99"⟩) = none := by decide

example :
    extract_item_name
      { titleElem := some ⟨none, "Jan 1, 2023 - Jan 31, 2023"⟩,
        publisherText := some "Acme", hasSubscriptionInfo := false,
        priceDiv := none, artworkImgSrc := none } = some "Acme" := by decide

example :
    extract_item_name
      { titleElem := some ⟨none, "Jan 1, 2023 - Jan 31, 2023"⟩,
        publisherText := none, hasSubscriptionInfo := false,
        priceDiv := none, artworkImgSrc := none } =
      some "Jan 1, 2023 - Jan 31, 2023" := by decide

example :
    extract_item_name
      { titleElem := some ⟨some "My App ", "ignored"⟩,
        publisherText := some "Acme", hasSubscriptionInfo := false,
        priceDiv := none, artworkImgSrc := none } = some "Acme - My App" := by
  decide

example :
    extract_item_name
      { titleElem := some ⟨none, "My App"⟩, publisherText := some "My App",
        hasSubscriptionInfo := false, priceDiv := none,
        artworkImgSrc := none } = some "My App" := by decide

example :
    is_subscription_item
      { titleElem := some ⟨none, "iCloud+ 50GB"⟩, publisherText := none,
        hasSubscriptionInfo := false, priceDiv := none,
        artworkImgSrc := none } = true := by decide

example :
    is_subscription_item
      { titleElem := some ⟨none, "My App"⟩, publisherText := none,
        hasSubscriptionInfo := false, priceDiv := none,
        artworkImgSrc := none } = false := by decide

example :
    extract_transactions
      ⟨[{ dateSpanText := some "Jan 5, 2023",
          itemsList := some
            [{ titleElem := some ⟨none, "My App"⟩, publisherText := none,
               hasSubscriptionInfo := false,
               priceDiv := some ⟨false, "$4.99"⟩, artworkImgSrc := none }] }]⟩ =
      Except.ok [{ date := "2023-01-05", item_name := "My App",
                   amount := "$4.99", is_subscription := false,
                   icon_path := none }] := by decide

example :
    extract_transactions
      ⟨[{ dateSpanText := some "garbage", itemsList := some [] }]⟩ =
      Except.error PyError.valueError := by decide

example : normalize_item_name_for_summary "iCloud+ 50GB" = "iCloud+" := by decide
example : normalize_item_name_for_summary "1000 PokéCoins" = "Pokémon GO" := by decide
example : normalize_item_name_for_summary "My App" = "My App" := by decide

example : amountNumeral "$0.99" = 99 / 100 := by
  have h : floatParts ['0', '.', '9', '9'] = (99, 2) := by decide
  simp [amountNumeral, floatVal, h]
  norm_num

example :
    analyze_repeated_transactions
      [{ date := "2023-01-05", item_name := "iCloud+ 50GB", amount := "$0.99",
         is_subscription := true, icon_path := none },
       { date := "2023-02-05", item_name := "iCloud+ 2TB", amount := "$9.99",
         is_subscription := true, icon_path := none }] =
      [{ item_name := "iCloud+", count := 2, total_amount := 1098 / 100 }] := by
  have h1 : amountNumeral "$0.99" = 99 / 100 := by
    have h : floatParts ['0', '.', '9', '9'] = (99, 2) := by decide
    simp [amountNumeral, floatVal, h]
    norm_num
  have h2 : amountNumeral "$9.99" = 999 / 100 := by
    have h : floatParts ['9', '.', '9', '9'] = (999, 2) := by decide
    simp [amountNumeral, floatVal, h]
    norm_num
  show [RepeatedEntry.mk "iCloud+" 2 (amountNumeral "$0.99" + amountNumeral "$9.99")] = _
  rw [h1, h2]
  norm_num

example :
    write_csv [{ date := "2023-01-05", item_name := "My, App", amount := "$4.99",
                 is_subscription := true, icon_path := none }] =
      ["Date,Item Name,Amount,Subscription",
       "2023-01-05,\"My, App\",$4.99,Yes"] := by decide

example :
    sortByDateDesc
      [{ date := "2022-01-05", item_name := "A", amount := "$1", is_subscription := false, icon_path := none },
       { date := "2023-01-05", item_name := "B", amount := "$2", is_subscription := false, icon_path := none }] =
      [{ date := "2023-01-05", item_name := "B", amount := "$2", is_subscription := false, icon_path := none },
       { date := "2022-01-05", item_name := "A", amount := "$1", is_subscription := false, icon_path := none }] := by
  decide

example : main_run ⟨[]⟩ =
    Except.ok { message := some "No paid transactions found.",
                csvLines := none, summaryWritten := false } := by decide

/-- The amount pattern stated by the spec (testable property 1 of §8),
written from the spec's words: `^\$[0-9]+(\.[0-9]+)?$` — a dollar sign,
one or more digits, and an optional fraction of one or more digits. -/
def specAmountPattern (s : String) : Bool :=
  match s.toList with
  | c :: rest =>
    c = '$' && !(rest.takeWhile Char.isDigit).isEmpty &&
    (match rest.dropWhile Char.isDigit with
     | [] => true
     | c2 :: fp => c2 = '.' && !fp.isEmpty && fp.all Char.isDigit)
  | [] => false

/-- The amount pattern the code actually guarantees:
`^\$[0-9]+\.?[0-9]*$` — as the spec's pattern, but the decimal point may
also appear with no fraction digits after it. -/
def codeAmountPattern (s : String) : Bool :=
  match s.toList with
  | c :: rest =>
    c = '$' && !(rest.takeWhile Char.isDigit).isEmpty &&
    (match rest.dropWhile Char.isDigit with
     | [] => true
     | c2 :: fp => c2 = '.' && fp.all Char.isDigit)
  | [] => false

example : specAmountPattern "$5.00" = true := by decide
example : specAmountPattern "$5" = true := by decide
example : specAmountPattern "$5." = false := by decide
example : codeAmountPattern "$5." = true := by decide
example : codeAmountPattern "$.5" = false := by decide
example : codeAmountPattern "5.0" = false := by decide

lemma takeWhile_all (p : Char → Bool) (cs : List Char) :
    (cs.takeWhile p).all p = true := by
  induction cs with
  | nil => rfl
  | cons c rest ih =>
    by_cases h : p c
    · simp [List.takeWhile_cons, h, ih]
    · simp [List.takeWhile_cons, h]

lemma takeWhile_append_of_all (p : Char → Bool) (ds rest : List Char)
    (h : ds.all p = true) :
    (ds ++ rest).takeWhile p = ds ++ rest.takeWhile p := by
  induction ds with
  | nil => simp
  | cons d dtl ih =>
    simp only [List.all_cons, Bool.and_eq_true] at h
    simp [List.takeWhile_cons, h.1, ih h.2]

lemma dropWhile_append_of_all (p : Char → Bool) (ds rest : List Char)
    (h : ds.all p = true) :
    (ds ++ rest).dropWhile p = rest.dropWhile p := by
  induction ds with
  | nil => simp
  | cons d dtl ih =>
    simp only [List.all_cons, Bool.and_eq_true] at h
    simp [List.dropWhile_cons, h.1, ih h.2]

lemma filter_ne_dollar_of_digits_dot (cs : List Char)
    (h : cs.all (fun c => c.isDigit || c = '.') = true) :
    cs.filter (fun c => decide (c ≠ '$')) = cs := by
  induction cs with
  | nil => rfl
  | cons c rest ih =>
    simp only [List.all_cons, Bool.and_eq_true] at h
    have hne : c ≠ '$' := by
      rcases Bool.or_eq_true _ _ |>.mp h.1 with hd | hdot
      · intro hc; rw [hc] at hd; exact absurd hd (by decide)
      · intro hc; rw [hc] at hdot; exact absurd hdot (by decide)
    rw [List.filter_cons, if_pos (show decide (c ≠ '$') = true by simpa using hne),
      ih h.2]

/-- Positivity of the rational value of a numeral is positivity of its
numerator: the bridge between the code's `float(amount) > 0` test and the
numerator test used in the executable embedding of `extract_amount`. -/
lemma floatVal_pos_iff (cs : List Char) :
    0 < floatVal cs ↔ 0 < (floatParts cs).1 := by
  unfold floatVal
  constructor
  · intro h
    by_contra hn
    have h0 : (floatParts cs).1 = 0 := by omega
    rw [h0] at h
    norm_num at h
  · intro h
    apply div_pos
    · exact_mod_cast h
    · positivity

/-- Every capture group produced by `matchAmountAt` is a non-empty digit
run, optionally followed by a dot and a digit run. -/
lemma matchAmountAt_shape (cs g : List Char) (h : matchAmountAt cs = some g) :
    ∃ ds, ds ≠ [] ∧ ds.all Char.isDigit = true ∧
      (g = ds ∨ ∃ fs, fs.all Char.isDigit = true ∧ g = ds ++ '.' :: fs) := by
  cases cs with
  | nil => simp [matchAmountAt] at h
  | cons c rest =>
    simp only [matchAmountAt] at h
    by_cases hc : c = '$'
    · rw [if_pos hc] at h
      by_cases he : (rest.takeWhile Char.isDigit).isEmpty
      · rw [if_pos he] at h; exact absurd h (by simp)
      · rw [if_neg he] at h
        refine ⟨rest.takeWhile Char.isDigit, by simpa [List.isEmpty_iff] using he,
          takeWhile_all _ _, ?_⟩
        cases hd : rest.dropWhile Char.isDigit with
        | nil =>
          rw [hd] at h
          exact Or.inl (Option.some.inj h).symm
        | cons c2 rest3 =>
          rw [hd] at h
          dsimp only at h
          by_cases hc2 : c2 = '.'
          · rw [if_pos hc2] at h
            subst hc2
            exact Or.inr ⟨rest3.takeWhile Char.isDigit, takeWhile_all _ _,
              (Option.some.inj h).symm⟩
          · rw [if_neg hc2] at h
            exact Or.inl (Option.some.inj h).symm
    · rw [if_neg hc] at h; exact absurd h (by simp)

lemma amountSearch_shape (cs g : List Char) (h : amountSearch cs = some g) :
    ∃ ds, ds ≠ [] ∧ ds.all Char.isDigit = true ∧
      (g = ds ∨ ∃ fs, fs.all Char.isDigit = true ∧ g = ds ++ '.' :: fs) := by
  induction cs with
  | nil => simp [amountSearch] at h
  | cons c rest ih =>
    rw [amountSearch] at h
    cases hm : matchAmountAt (c :: rest) with
    | some g2 =>
      rw [hm] at h
      exact (Option.some.inj h) ▸ matchAmountAt_shape _ _ hm
    | none =>
      rw [hm] at h
      exact ih h

lemma toList_dollar_mk (g : List Char) : ("$" ++ String.mk g).toList = '$' :: g :=
  rfl

lemma codeAmountPattern_of_shape (g : List Char)
    (h : ∃ ds, ds ≠ [] ∧ ds.all Char.isDigit = true ∧
      (g = ds ∨ ∃ fs, fs.all Char.isDigit = true ∧ g = ds ++ '.' :: fs)) :
    codeAmountPattern ("$" ++ String.mk g) = true := by
  obtain ⟨ds, hne, hall, hcase⟩ := h
  rcases hcase with rfl | ⟨fs, hfs, rfl⟩
  · simp only [codeAmountPattern, toList_dollar_mk]
    have h1 : g.takeWhile Char.isDigit = g := by
      have := takeWhile_append_of_all Char.isDigit g [] hall
      simpa using this
    have h2 : g.dropWhile Char.isDigit = [] := by
      have := dropWhile_append_of_all Char.isDigit g [] hall
      simpa using this
    simp [h1, h2, hne]
  · simp only [codeAmountPattern, toList_dollar_mk]
    have h1 : (ds ++ '.' :: fs).takeWhile Char.isDigit = ds := by
      rw [takeWhile_append_of_all Char.isDigit ds _ hall]
      simp [List.takeWhile_cons]
    have h2 : (ds ++ '.' :: fs).dropWhile Char.isDigit = '.' :: fs := by
      rw [dropWhile_append_of_all Char.isDigit ds _ hall]
      simp [List.dropWhile_cons]
    simp [h1, h2, hne, hfs]

lemma shape_digits_dot (g : List Char)
    (h : ∃ ds, ds ≠ [] ∧ ds.all Char.isDigit = true ∧
      (g = ds ∨ ∃ fs, fs.all Char.isDigit = true ∧ g = ds ++ '.' :: fs)) :
    g.all (fun c => c.isDigit || decide (c = '.')) = true := by
  obtain ⟨ds, _, hall, hcase⟩ := h
  rw [List.all_eq_true] at hall ⊢
  rcases hcase with rfl | ⟨fs, hfs, rfl⟩
  · intro x hx
    simp [hall x hx]
  · rw [List.all_eq_true] at hfs
    intro x hx
    rcases List.mem_append.mp hx with h1 | h2
    · simp [hall x h1]
    · rcases List.mem_cons.mp h2 with rfl | h3
      · simp
      · simp [hfs x h3]

lemma amountNumeral_dollar_mk (g : List Char)
    (h : ∃ ds, ds ≠ [] ∧ ds.all Char.isDigit = true ∧
      (g = ds ∨ ∃ fs, fs.all Char.isDigit = true ∧ g = ds ++ '.' :: fs)) :
    amountNumeral ("$" ++ String.mk g) = floatVal g := by
  unfold amountNumeral
  rw [toList_dollar_mk, List.filter_cons,
    if_neg (by simp : ¬(decide ('$' ≠ '$') = true)),
    filter_ne_dollar_of_digits_dot g (shape_digits_dot g h)]

lemma extract_amount_eq_some (pe : PriceElem) (a : String)
    (h : extract_amount (some pe) = some a) :
    ∃ g, amountSearch pe.text.toList = some g ∧ 0 < (floatParts g).1 ∧
      a = "$" ++ String.mk g := by
  unfold extract_amount at h
  dsimp only at h
  by_cases h1 : pe.hasFreeSpan = true
  · rw [if_pos h1] at h; exact absurd h (by simp)
  · rw [if_neg h1] at h
    by_cases h2 : (containsSub "Free" pe.text || pe.text == "$0.00" || pe.text == "") = true
    · rw [if_pos h2] at h; exact absurd h (by simp)
    · rw [if_neg h2] at h
      cases hs : amountSearch pe.text.toList with
      | none => rw [hs] at h; exact absurd h (by simp)
      | some g =>
        rw [hs] at h
        dsimp only at h
        by_cases h3 : 0 < (floatParts g).1
        · rw [if_pos h3] at h
          exact ⟨g, rfl, h3, (Option.some.inj h).symm⟩
        · rw [if_neg h3] at h; exact absurd h (by simp)

/-- Any amount returned by `extract_amount` matches the code's amount
pattern and has a strictly positive decimal value. -/
lemma extract_amount_spec (pe : PriceElem) (a : String)
    (h : extract_amount (some pe) = some a) :
    codeAmountPattern a = true ∧ 0 < amountNumeral a := by
  obtain ⟨g, hs, hpos, rfl⟩ := extract_amount_eq_some pe a h
  have hshape := amountSearch_shape _ _ hs
  refine ⟨codeAmountPattern_of_shape g hshape, ?_⟩
  rw [amountNumeral_dollar_mk g hshape]
  exact (floatVal_pos_iff g).mpr hpos

lemma process_item_amount (d : String) (item : Item) (t : Transaction)
    (h : process_item d item = some t) :
    ∃ pe, extract_amount (some pe) = some t.amount := by
  unfold process_item at h
  cases hn : extract_item_name item with
  | none => rw [hn] at h; exact absurd h (by simp)
  | some nm =>
    rw [hn] at h
    dsimp only at h
    cases hp : item.priceDiv with
    | none => rw [hp] at h; exact absurd h (by simp)
    | some pd =>
      rw [hp] at h
      dsimp only at h
      cases ha : extract_amount (some pd) with
      | none => rw [ha] at h; exact absurd h (by simp)
      | some amt =>
        rw [ha] at h
        dsimp only at h
        have heq := Option.some.inj h
        subst heq
        exact ⟨pd, ha⟩

lemma extract_from_blocks_amount :
    ∀ (bs : List PurchaseBlock) (ts : List Transaction),
      extract_from_blocks bs = Except.ok ts → ∀ t ∈ ts,
        ∃ pe, extract_amount (some pe) = some t.amount := by
  intro bs
  induction bs with
  | nil =>
    intro ts h t ht
    rw [extract_from_blocks] at h
    injection h with h2
    subst h2
    simp at ht
  | cons b rest ih =>
    intro ts h t ht
    rw [extract_from_blocks] at h
    cases hb : process_block b with
    | error e => rw [hb] at h; exact absurd h (by simp)
    | ok ts1 =>
      rw [hb] at h
      cases hr : extract_from_blocks rest with
      | error e => rw [hr] at h; exact absurd h (by simp)
      | ok more =>
        rw [hr] at h
        injection h with h2
        subst h2
        rcases List.mem_append.mp ht with h1 | h2
        · unfold process_block at hb
          cases hd : b.dateSpanText with
          | none =>
            rw [hd] at hb
            injection hb with h3
            subst h3
            simp at h1
          | some dtext =>
            rw [hd] at hb
            dsimp only at hb
            cases hpd : parse_date dtext with
            | none => rw [hpd] at hb; exact absurd hb (by simp)
            | some fd =>
              rw [hpd] at hb
              dsimp only at hb
              cases hil : b.itemsList with
              | none =>
                rw [hil] at hb
                injection hb with h3
                subst h3
                simp at h1
              | some items =>
                rw [hil] at hb
                dsimp only at hb
                injection hb with h3
                subst h3
                obtain ⟨item, _, hpi⟩ := List.mem_filterMap.mp h1
                exact process_item_amount fd item t hpi
        · exact ih more hr t h2

lemma insertDescBy_perm {α : Type} (le : α → α → Bool) (x : α) (l : List α) :
    (insertDescBy le x l).Perm (x :: l) := by
  induction l with
  | nil => exact List.Perm.refl _
  | cons y ys ih =>
    rw [insertDescBy]
    by_cases h : le y x = true
    · rw [if_pos h]
    · rw [if_neg h]
      exact List.Perm.trans (List.Perm.cons y ih) (List.Perm.swap x y ys)

lemma sortDescBy_perm {α : Type} (le : α → α → Bool) (l : List α) :
    (sortDescBy le l).Perm l := by
  induction l with
  | nil => exact List.Perm.refl _
  | cons x xs ih =>
    show (insertDescBy le x (sortDescBy le xs)).Perm (x :: xs)
    exact List.Perm.trans (insertDescBy_perm le x (sortDescBy le xs))
      (List.Perm.cons x ih)

lemma insertDescBy_sorted {α : Type} (le : α → α → Bool)
    (htot : ∀ a b, le a b = false → le b a = true)
    (htrans : ∀ a b c, le a b = true → le b c = true → le a c = true)
    (x : α) (l : List α)
    (hs : l.Pairwise (fun a b => le b a = true)) :
    (insertDescBy le x l).Pairwise (fun a b => le b a = true) := by
  induction l with
  | nil => simp [insertDescBy]
  | cons y ys ih =>
    rw [List.pairwise_cons] at hs
    rw [insertDescBy]
    by_cases h : le y x = true
    · rw [if_pos h]
      refine List.Pairwise.cons ?_ (List.Pairwise.cons hs.1 hs.2)
      intro b hb
      rcases List.mem_cons.mp hb with rfl | hmem
      · exact h
      · exact htrans b y x (hs.1 b hmem) h
    · rw [if_neg h]
      have hxy : le x y = true := htot y x (by simpa using h)
      refine List.Pairwise.cons ?_ (ih hs.2)
      intro b hb
      have hb2 := (insertDescBy_perm le x ys).mem_iff.mp hb
      rcases List.mem_cons.mp hb2 with rfl | hmem
      · exact hxy
      · exact hs.1 b hmem

lemma sortDescBy_sorted {α : Type} (le : α → α → Bool)
    (htot : ∀ a b, le a b = false → le b a = true)
    (htrans : ∀ a b c, le a b = true → le b c = true → le a c = true)
    (l : List α) :
    (sortDescBy le l).Pairwise (fun a b => le b a = true) := by
  induction l with
  | nil => simp [sortDescBy]
  | cons x xs ih =>
    show (insertDescBy le x (sortDescBy le xs)).Pairwise _
    exact insertDescBy_sorted le htot htrans x _ ih

lemma charListLe_total (as bs : List Char) :
    charListLe as bs = false → charListLe bs as = true := by
  induction as generalizing bs with
  | nil => intro h; exact absurd h (by simp [charListLe])
  | cons a at2 ih =>
    intro h
    cases bs with
    | nil => rfl
    | cons b bt =>
      rw [charListLe] at h
      rw [charListLe]
      by_cases h1 : a < b
      · rw [if_pos h1] at h; exact absurd h (by simp)
      · rw [if_neg h1] at h
        by_cases h2 : b < a
        · rw [if_pos h2]
        · rw [if_neg h2] at h
          rw [if_neg h2, if_neg h1]
          exact ih bt h

lemma charListLe_trans (as bs cs : List Char) :
    charListLe as bs = true → charListLe bs cs = true →
      charListLe as cs = true := by
  induction as generalizing bs cs with
  | nil => intro _ _; rfl
  | cons a at2 ih =>
    intro h1 h2
    cases bs with
    | nil => exact absurd h1 (by simp [charListLe])
    | cons b bt =>
      cases cs with
      | nil => exact absurd h2 (by simp [charListLe])
      | cons c ct =>
        rw [charListLe] at h1 h2 ⊢
        by_cases hab : a < b
        · rw [if_pos hab] at h1
          by_cases hbc : b < c
          · rw [if_pos (lt_trans hab hbc)]
          · rw [if_neg hbc] at h2
            by_cases hcb : c < b
            · rw [if_pos hcb] at h2; exact absurd h2 (by simp)
            · have hbceq : b = c := le_antisymm (le_of_not_lt hcb) (le_of_not_lt hbc)
              rw [if_pos (hbceq ▸ hab)]
        · rw [if_neg hab] at h1
          by_cases hba : b < a
          · rw [if_pos hba] at h1; exact absurd h1 (by simp)
          · rw [if_neg hba] at h1
            have habeq : a = b := le_antisymm (le_of_not_lt hba) (le_of_not_lt hab)
            by_cases hbc : b < c
            · rw [if_pos (habeq ▸ hbc)]
            · rw [if_neg hbc] at h2
              by_cases hcb : c < b
              · rw [if_pos hcb] at h2; exact absurd h2 (by simp)
              · rw [if_neg hcb] at h2
                rw [if_neg (habeq ▸ hbc), if_neg (habeq ▸ hcb)]
                exact ih bt ct h1 h2

lemma strLe_total (a b : String) : strLe a b = false → strLe b a = true :=
  charListLe_total a.toList b.toList

lemma strLe_trans (a b c : String) :
    strLe a b = true → strLe b c = true → strLe a c = true :=
  charListLe_trans a.toList b.toList c.toList

/-- Helper for the per-block error propagation: a block whose date span
text fails to parse makes the whole purchase loop return the
`ValueError`. -/
lemma extract_from_blocks_error (bs : List PurchaseBlock) (b : PurchaseBlock)
    (s : String) (hb : b ∈ bs) (hs : b.dateSpanText = some s)
    (hp : parse_date s = none) :
    extract_from_blocks bs = Except.error PyError.valueError := by
  induction bs with
  | nil => simp at hb
  | cons b0 rest ih =>
    rw [extract_from_blocks]
    rcases List.mem_cons.mp hb with rfl | hmem
    · have hpb : process_block b = Except.error PyError.valueError := by
        unfold process_block
        rw [hs]
        dsimp only
        rw [hp]
      rw [hpb]
    · cases hb0 : process_block b0 with
      | error e => cases e; rfl
      | ok ts1 =>
        dsimp only
        rw [ih hmem]

/-- C1 (counterexample): price text `"$5."` survives extraction with the
amount string `"$5."`, which does not match the spec's amount pattern
`^\$[0-9]+(\.[0-9]+)?$`. -/
theorem c1_spec_pattern_counterexample :
    extract_transactions
      ⟨[{ dateSpanText := some "Jan 5, 2023",
          itemsList := some
            [{ titleElem := some ⟨none, "My App"⟩, publisherText := none,
               hasSubscriptionInfo := false, priceDiv := some ⟨false, "$5."⟩,
               artworkImgSrc := none }] }]⟩ =
      Except.ok [{ date := "2023-01-05", item_name := "My App",
                   amount := "$5.", is_subscription := false,
                   icon_path := none }] ∧
    specAmountPattern "$5." = false := by
  exact ⟨by decide, by decide⟩

/-- C1 (amended): every Transaction in a successful result of
`extract_transactions` has an amount matching `^\$[0-9]+\.?[0-9]*$` (the
spec's pattern, but the decimal point may carry no fraction digits) and
the numeral parsed from it is strictly greater than zero. -/
theorem c1_amount_invariant (doc : Doc) (ts : List Transaction)
    (t : Transaction) (h : extract_transactions doc = Except.ok ts)
    (ht : t ∈ ts) :
    codeAmountPattern t.amount = true ∧ 0 < amountNumeral t.amount := by
  obtain ⟨pe, hpe⟩ := extract_from_blocks_amount doc.purchases ts h t ht
  exact extract_amount_spec pe t.amount hpe

/-- C1 (witness): the amended invariant evaluated on a one-purchase
document. -/
theorem c1_amount_invariant_witness :
    codeAmountPattern "$4.99" = true ∧ 0 < amountNumeral "$4.99" := by
  have h := c1_amount_invariant
    ⟨[{ dateSpanText := some "Jan 5, 2023",
        itemsList := some
          [{ titleElem := some ⟨none, "Some Game"⟩, publisherText := none,
             hasSubscriptionInfo := false, priceDiv := some ⟨false, "$4.99"⟩,
             artworkImgSrc := none }] }]⟩
    [{ date := "2023-01-05", item_name := "Some Game", amount := "$4.99",
       is_subscription := false, icon_path := none }]
    { date := "2023-01-05", item_name := "Some Game", amount := "$4.99",
      is_subscription := false, icon_path := none }
    (by decide) (by decide)
  exact h

/-- C2 (counterexample): a purchase block whose date text does not parse
does not lead to a skip — extraction aborts with the `ValueError`, and the
following well-formed block is never reached, although on its own it
yields a transaction. -/
theorem c2_skip_counterexample :
    extract_transactions
      ⟨[{ dateSpanText := some "Not a date",
          itemsList := some
            [{ titleElem := some ⟨none, "Lost App"⟩, publisherText := none,
               hasSubscriptionInfo := false, priceDiv := some ⟨false, "$2.99"⟩,
               artworkImgSrc := none }] },
        { dateSpanText := some "Feb 6, 2024",
          itemsList := some
            [{ titleElem := some ⟨none, "Lost App"⟩, publisherText := none,
               hasSubscriptionInfo := false, priceDiv := some ⟨false, "$2.99"⟩,
               artworkImgSrc := none }] }]⟩ =
      Except.error PyError.valueError ∧
    extract_transactions
      ⟨[{ dateSpanText := some "Feb 6, 2024",
          itemsList := some
            [{ titleElem := some ⟨none, "Lost App"⟩, publisherText := none,
               hasSubscriptionInfo := false, priceDiv := some ⟨false, "$2.99"⟩,
               artworkImgSrc := none }] }]⟩ =
      Except.ok [{ date := "2024-02-06", item_name := "Lost App",
                   amount := "$2.99", is_subscription := false,
                   icon_path := none }] := by
  exact ⟨by decide, by decide⟩

/-- C2 (amended): a purchase block carrying a date span whose text does
not parse as `"Mon D, YYYY"` makes the whole extraction run fail with the
uncaught `ValueError` of `datetime.strptime` — the block is not skipped;
only a missing date span or a missing item list is skipped. -/
theorem c2_unparsable_date_fatal (doc : Doc) (b : PurchaseBlock) (s : String)
    (hb : b ∈ doc.purchases) (hs : b.dateSpanText = some s)
    (hp : parse_date s = none) :
    extract_transactions doc = Except.error PyError.valueError :=
  extract_from_blocks_error doc.purchases b s hb hs hp

/-- C2 (witness): the fatal-error behaviour evaluated on a concrete
document with an unparsable date. -/
theorem c2_unparsable_date_fatal_witness :
    extract_transactions
      ⟨[{ dateSpanText := some "2023-01-05", itemsList := some [] }]⟩ =
      Except.error PyError.valueError :=
  c2_unparsable_date_fatal _
    { dateSpanText := some "2023-01-05", itemsList := some [] }
    "2023-01-05" (by decide) rfl (by decide)

/-- C5: a price container whose stripped text contains `"Free"`, equals
`"$0.00"` or is empty yields no amount, and the item yields no
Transaction. -/
theorem c5_free_zero_empty_discarded (pe : PriceElem) (d : String)
    (item : Item) (hpd : item.priceDiv = some pe)
    (hcond : containsSub "Free" pe.text = true ∨ pe.text = "$0.00" ∨
      pe.text = "") :
    extract_amount (some pe) = none ∧ process_item d item = none := by
  have hA : extract_amount (some pe) = none := by
    unfold extract_amount
    dsimp only
    by_cases h1 : pe.hasFreeSpan = true
    · rw [if_pos h1]
    · rw [if_neg h1]
      have hor :
          (containsSub "Free" pe.text || pe.text == "$0.00" || pe.text == "") =
            true := by
        rcases hcond with h | h | h <;> simp [h]
      rw [if_pos hor]
  refine ⟨hA, ?_⟩
  unfold process_item
  cases hn : extract_item_name item with
  | none => rfl
  | some nm =>
    dsimp only
    rw [hpd]
    dsimp only
    rw [hA]

/-- C5 (witness): the discard behaviour evaluated on concrete free and
zero-priced items. -/
theorem c5_free_zero_empty_discarded_witness :
    extract_amount (some ⟨false, "Free"⟩) = none ∧
    process_item "2023-01-05"
      { titleElem := some ⟨none, "Bundled Extra"⟩, publisherText := none,
        hasSubscriptionInfo := false, priceDiv := some ⟨false, "Free"⟩,
        artworkImgSrc := none } = none :=
  c5_free_zero_empty_discarded ⟨false, "Free"⟩ "2023-01-05"
    { titleElem := some ⟨none, "Bundled Extra"⟩, publisherText := none,
      hasSubscriptionInfo := false, priceDiv := some ⟨false, "Free"⟩,
      artworkImgSrc := none } rfl (Or.inl (by decide))

/-- C9: when extraction succeeds with zero transactions, the driver
reports that no transactions were found and neither the CSV nor the HTML
summary is produced. -/
theorem c9_empty_result_no_output (doc : Doc)
    (h : extract_transactions doc = Except.ok []) :
    main_run doc =
      Except.ok { message := some "No paid transactions found.",
                  csvLines := none, summaryWritten := false } := by
  unfold main_run
  rw [h]
  rfl

/-- C9 (witness): the no-output behaviour on a document whose every block
is skipped (one with no date span, one with no item list). -/
theorem c9_empty_result_no_output_witness :
    main_run ⟨[{ dateSpanText := none, itemsList := none },
               { dateSpanText := some "Jan 5, 2023", itemsList := none }]⟩ =
      Except.ok { message := some "No paid transactions found.",
                  csvLines := none, summaryWritten := false } :=
  c9_empty_result_no_output _ (by decide)

/-- C10: once the free/zero/empty screens pass, the amount is the first
`\$digits` match of the price text — surrounding characters, a leading
minus sign included, are ignored; `"-$5.00"` yields the amount
`"$5.00"`. -/
theorem c10_first_dollar_match (pe : PriceElem)
    (h1 : pe.hasFreeSpan = false)
    (h2 : containsSub "Free" pe.text = false)
    (h3 : pe.text ≠ "$0.00")
    (h4 : pe.text ≠ "") :
    extract_amount (some pe) =
      (match amountSearch pe.text.toList with
       | some g =>
         if 0 < (floatParts g).1 then some ("$" ++ String.mk g) else none
       | none => none) ∧
    (∀ cs : List Char, amountSearch ('-' :: cs) = amountSearch cs) ∧
    extract_amount (some ⟨false, "-$5.00"⟩) = some "$5.00" := by
  refine ⟨?_, fun cs => rfl, by decide⟩
  unfold extract_amount
  dsimp only
  rw [if_neg (by simp [h1]), if_neg (by simp [h2, h3, h4])]

/-- C3: when the resolved title text is a date-range label, a present and
non-empty sibling publisher text becomes the item name; with the
publisher absent or empty, the date-range text is kept. -/
theorem c3_date_range_correction (item : Item) (t : TitleElem)
    (htitle : item.titleElem = some t)
    (hne : resolvedTitleText t ≠ "")
    (hrange : is_date_range (resolvedTitleText t) = true) :
    (∀ p, item.publisherText = some p → p ≠ "" →
        extract_item_name item = some p) ∧
    (item.publisherText = none ∨ item.publisherText = some "" →
        extract_item_name item = some (resolvedTitleText t)) := by
  constructor
  · intro p hp hpne
    simp [extract_item_name, htitle, hne, hrange, hp, hpne]
  · intro hcase
    rcases hcase with hp | hp <;>
      simp [extract_item_name, htitle, hne, hrange, hp]

/-- C3 (witness): the date-range correction on the spec's example — title
`"Jan 1, 2023 - Jan 31, 2023"` with publisher `"Acme"` resolves to
`"Acme"`. -/
theorem c3_date_range_correction_witness :
    extract_item_name
      { titleElem := some ⟨none, "Jan 1, 2023 - Jan 31, 2023"⟩,
        publisherText := some "Acme", hasSubscriptionInfo := false,
        priceDiv := none, artworkImgSrc := none } = some "Acme" :=
  (c3_date_range_correction
    { titleElem := some ⟨none, "Jan 1, 2023 - Jan 31, 2023"⟩,
      publisherText := some "Acme", hasSubscriptionInfo := false,
      priceDiv := none, artworkImgSrc := none }
    ⟨none, "Jan 1, 2023 - Jan 31, 2023"⟩ rfl (by decide) (by decide)).1
    "Acme" rfl (by decide)

/-- C4: with a non-date-range resolved name, a present, non-empty
publisher text that differs from the name prefixes it as
`"<publisher> - <name>"`; an absent, empty or identical publisher leaves
the name unchanged. -/
theorem c4_publisher_disambiguation (item : Item) (t : TitleElem)
    (htitle : item.titleElem = some t)
    (hne : resolvedTitleText t ≠ "")
    (hrange : is_date_range (resolvedTitleText t) = false) :
    (∀ p, item.publisherText = some p → p ≠ "" → p ≠ resolvedTitleText t →
        extract_item_name item = some (p ++ " - " ++ resolvedTitleText t)) ∧
    (item.publisherText = none ∨ item.publisherText = some "" ∨
        item.publisherText = some (resolvedTitleText t) →
      extract_item_name item = some (resolvedTitleText t)) := by
  constructor
  · intro p hp hpne hpdiff
    simp [extract_item_name, htitle, hne, hrange, hp, hpne, hpdiff]
  · intro hcase
    rcases hcase with hp | hp | hp <;>
      simp [extract_item_name, htitle, hne, hrange, hp]

/-- C4 (witness): publisher disambiguation on a concrete item — publisher
`"Acme"` and title `"My App"` yield `"Acme - My App"`. -/
theorem c4_publisher_disambiguation_witness :
    extract_item_name
      { titleElem := some ⟨none, "My App"⟩, publisherText := some "Acme",
        hasSubscriptionInfo := false, priceDiv := none,
        artworkImgSrc := none } = some "Acme - My App" :=
  (c4_publisher_disambiguation
    { titleElem := some ⟨none, "My App"⟩, publisherText := some "Acme",
      hasSubscriptionInfo := false, priceDiv := none, artworkImgSrc := none }
    ⟨none, "My App"⟩ rfl (by decide) (by decide)).1
    "Acme" rfl (by decide) (by decide)

/-- C6: the subscription flag is true exactly when the dedicated
subscription-info sub-element is present or the resolved item name
contains one of the case-sensitive keywords `iCloud+`, `iCloud`,
`subscription`, `Subscription`. -/
theorem c6_subscription_classification (item : Item) :
    is_subscription_item item = true ↔
      item.hasSubscriptionInfo = true ∨
      ∃ name, extract_item_name item = some name ∧
        (containsSub "iCloud+" name = true ∨ containsSub "iCloud" name = true ∨
         containsSub "subscription" name = true ∨
         containsSub "Subscription" name = true) := by
  unfold is_subscription_item
  by_cases hs : item.hasSubscriptionInfo = true
  · simp [hs]
  · rw [if_neg hs]
    cases hn : extract_item_name item with
    | none => simp [hs, hn]
    | some name =>
      dsimp only
      by_cases hne : name = ""
      · subst hne
        simp [hs, hn, subscriptionKeywords]
        decide
      · simp [hs, hn, subscriptionKeywords, hne, or_assoc]

/-- C6 (witness): the classification evaluated on a concrete item whose
resolved name contains `iCloud+`. -/
theorem c6_subscription_classification_witness :
    is_subscription_item
      { titleElem := some ⟨none, "iCloud+ 50GB"⟩, publisherText := none,
        hasSubscriptionInfo := false, priceDiv := none,
        artworkImgSrc := none } = true :=
  (c6_subscription_classification
    { titleElem := some ⟨none, "iCloud+ 50GB"⟩, publisherText := none,
      hasSubscriptionInfo := false, priceDiv := none,
      artworkImgSrc := none }).mpr
    (Or.inr ⟨"iCloud+ 50GB", by decide, Or.inl (by decide)⟩)

/-- C10 (witness): the characterization evaluated on the price text
`"Was $12.99 now $5.00"`, whose first match is `$12.99`. -/
theorem c10_first_dollar_match_witness :
    extract_amount (some ⟨false, "Was $12.99 now $5.00"⟩) =
      (match amountSearch "Was $12.99 now $5.00".toList with
       | some g =>
         if 0 < (floatParts g).1 then some ("$" ++ String.mk g) else none
       | none => none) :=
  (c10_first_dollar_match ⟨false, "Was $12.99 now $5.00"⟩ rfl (by decide)
    (by decide) (by decide)).1

/-- C7: the repeated-items view keeps only groups seen at least twice and
is sorted in descending order of total amount; the transactions named
`"iCloud+ 50GB"` and `"iCloud+ 2TB"` are grouped under the key
`"iCloud+"` with combined count 2 and summed amount. -/
theorem c7_repeated_items_view :
    (∀ (ts : List Transaction) (e : RepeatedEntry),
        e ∈ analyze_repeated_transactions ts → 2 ≤ e.count) ∧
    (∀ ts : List Transaction,
        (analyze_repeated_transactions ts).Pairwise
          (fun a b => b.total_amount ≤ a.total_amount)) ∧
    analyze_repeated_transactions
        [{ date := "2023-01-05", item_name := "iCloud+ 50GB",
           amount := "$0.99", is_subscription := true, icon_path := none },
         { date := "2023-02-05", item_name := "iCloud+ 2TB",
           amount := "$9.99", is_subscription := true, icon_path := none }] =
      [{ item_name := "iCloud+", count := 2, total_amount := 1098 / 100 }] := by
  refine ⟨?_, ?_, ?_⟩
  · intro ts e he
    simp only [analyze_repeated_transactions, sortByTotalDesc] at he
    have he2 := (sortDescBy_perm _ _).mem_iff.mp he
    obtain ⟨x, hx, rfl⟩ := List.mem_map.mp he2
    have h1 := (List.mem_filter.mp hx).2
    simp only [decide_eq_true_eq] at h1
    exact h1
  · intro ts
    simp only [analyze_repeated_transactions, sortByTotalDesc]
    have h := sortDescBy_sorted
      (fun a b : RepeatedEntry => decide (a.total_amount ≤ b.total_amount))
      (fun a b hab => by
        rw [decide_eq_true_eq]
        rw [decide_eq_false_iff_not] at hab
        exact le_of_not_le hab)
      (fun a b c h1 h2 => by
        rw [decide_eq_true_eq] at h1 h2 ⊢
        exact le_trans h1 h2)
    exact List.Pairwise.imp (fun hab => by rwa [decide_eq_true_eq] at hab)
      (h _)
  · have h1 : amountNumeral "$0.99" = 99 / 100 := by
      have h : floatParts ['0', '.', '9', '9'] = (99, 2) := by decide
      simp [amountNumeral, floatVal, h]
      norm_num
    have h2 : amountNumeral "$9.99" = 999 / 100 := by
      have h : floatParts ['9', '.', '9', '9'] = (999, 2) := by decide
      simp [amountNumeral, floatVal, h]
      norm_num
    show [RepeatedEntry.mk "iCloud+" 2
      (amountNumeral "$0.99" + amountNumeral "$9.99")] = _
    rw [h1, h2]
    norm_num

/-- C7 (witness): the count bound evaluated on the grouped iCloud+
entry of the concrete two-transaction list. -/
theorem c7_repeated_items_view_witness :
    2 ≤ (RepeatedEntry.mk "iCloud+" 2 (1098 / 100)).count := by
  refine c7_repeated_items_view.1
    [{ date := "2023-01-05", item_name := "iCloud+ 50GB", amount := "$0.99",
       is_subscription := true, icon_path := none },
     { date := "2023-02-05", item_name := "iCloud+ 2TB", amount := "$9.99",
       is_subscription := true, icon_path := none }] _ ?_
  rw [c7_repeated_items_view.2.2]
  exact List.mem_singleton.mpr rfl

/-- C8: the CSV produced by the driver has the fixed header, exactly one
row per transaction, the subscription field rendered as `Yes` / `No`, and
its rows sorted by date in descending (code-point lexicographic, hence
chronological for `YYYY-MM-DD`) order. -/
theorem c8_csv_sorted_output (ts : List Transaction) (hts : ts ≠ []) :
    write_csv (sortByDateDesc ts) =
      "Date,Item Name,Amount,Subscription" :: (sortByDateDesc ts).map csvRow ∧
    (write_csv (sortByDateDesc ts)).length = ts.length + 1 ∧
    (sortByDateDesc ts).Perm ts ∧
    ((sortByDateDesc ts).map Transaction.date).Pairwise
      (fun a b => strLe b a = true) ∧
    ∀ t ∈ ts,
      csvRow t = String.intercalate ","
        [csvField t.date, csvField t.item_name, csvField t.amount,
         if t.is_subscription then "Yes" else "No"] ∧
      ((if t.is_subscription then "Yes" else "No") = "Yes" ∨
       (if t.is_subscription then "Yes" else "No") = "No") := by
  have hperm : (sortByDateDesc ts).Perm ts := sortDescBy_perm _ ts
  refine ⟨?_, ?_, hperm, ?_, ?_⟩
  · unfold write_csv
    rw [show String.intercalate "," (csvFieldnames.map csvField) =
      "Date,Item Name,Amount,Subscription" from by decide]
  · simp [write_csv, hperm.length_eq]
  · rw [List.pairwise_map]
    exact sortDescBy_sorted (fun a b : Transaction => strLe a.date b.date)
      (fun a b hab => strLe_total _ _ hab)
      (fun a b c h1 h2 => strLe_trans _ _ _ h1 h2) ts
  · intro t _
    constructor
    · by_cases h : t.is_subscription = true <;>
        simp [csvRow, h, show csvField "Yes" = "Yes" from by decide,
          show csvField "No" = "No" from by decide]
    · by_cases h : t.is_subscription = true <;> simp [h]

/-- C8 (witness): the header-and-rows equation evaluated on a
two-transaction list. -/
theorem c8_csv_sorted_output_witness :
    write_csv (sortByDateDesc
      [{ date := "2022-01-05", item_name := "A", amount := "$1.00",
         is_subscription := false, icon_path := none },
       { date := "2023-01-05", item_name := "B", amount := "$2.00",
         is_subscription := true, icon_path := none }]) =
      "Date,Item Name,Amount,Subscription" ::
        (sortByDateDesc
          [{ date := "2022-01-05", item_name := "A", amount := "$1.00",
             is_subscription := false, icon_path := none },
           { date := "2023-01-05", item_name := "B", amount := "$2.00",
             is_subscription := true, icon_path := none }]).map csvRow :=
  (c8_csv_sorted_output
    [{ date := "2022-01-05", item_name := "A", amount := "$1.00",
       is_subscription := false, icon_path := none },
     { date := "2023-01-05", item_name := "B", amount := "$2.00",
       is_subscription := true, icon_path := none }] (by decide)).1

end AppleSpend
